import Mathlib

/-!
Shallow embedding of the HikariWeave audio core (EventQueue, AudioEngine
onset detection, ModMatrix) and proofs about the behaviour of those
operations.  Numeric values from the JavaScript source are embedded as
rationals (`ℚ`) where the operations are exact arithmetic and comparisons,
and as reals (`ℝ`) where the source calls `Math.exp` / `Math.sqrt`.
-/

set_option maxHeartbeats 1000000

namespace HikariWeave

/-- Frequency band labels used by `AudioEvent.band` and onset detection. -/
inductive Band
  | low
  | mid
  | high
  | full
deriving DecidableEq, Repr

/-- The `AudioEvent` interface of `AudioEngine.ts`: occurrence time `t`,
band, energy, and optional pitch / centroid carried from the frame. -/
structure AudioEvent where
  t : ℚ
  band : Band
  energy : ℚ
  pitch : Option ℚ
  centroid : Option ℚ
deriving DecidableEq, Repr

/-- State of the `EventQueue` class: the retained event list plus the
`halfLife` and `clusterWindow` fields. -/
structure EventQueue where
  events : List AudioEvent
  halfLife : ℚ
  clusterWindow : ℚ
deriving DecidableEq, Repr

namespace EventQueue

/-- The `EventQueue` constructor: empty event list, caller-supplied
half-life (source default 1.5 s) and the fixed 30 ms cluster window. -/
def new (halfLife : ℚ) : EventQueue :=
  { events := [], halfLife := halfLife, clusterWindow := 3 / 100 }

/-- The membership test of the clustering loop in `clusterEvent`:
an existing event is absorbed when its `t` lies within
`[newEvent.t - clusterWindow, newEvent.t + clusterWindow]`. -/
def inCluster (q : EventQueue) (newEvent : AudioEvent) (e : AudioEvent) : Bool :=
  decide (newEvent.t - q.clusterWindow ≤ e.t ∧ e.t ≤ newEvent.t + q.clusterWindow)

/-- The private `clusterEvent` method.  It partitions the held events into
those inside the ±30 ms window of the new event and the rest; with an
empty cluster the new event is returned unchanged, otherwise the cluster
plus the new event is merged into one combined event (summed energy capped
at 1, energy-weighted pitch / centroid, newest `t` and `band`).  The
returned pair is (returned event, this.events after the method). -/
def clusterEvent (q : EventQueue) (newEvent : AudioEvent) :
    Option AudioEvent × List AudioEvent :=
  let clusteredEvents := q.events.filter fun e => q.inCluster newEvent e
  let remainingEvents := q.events.filter fun e => !q.inCluster newEvent e
  if clusteredEvents.isEmpty then
    (some newEvent, remainingEvents)
  else
    let cluster := clusteredEvents ++ [newEvent]
    let totalEnergy := (cluster.map fun e => e.energy).sum
    let weightedPitch := (cluster.filterMap fun e => e.pitch.map fun p => p * e.energy).sum
    let pitchWeight := ((cluster.filter fun e => e.pitch.isSome).map fun e => e.energy).sum
    let weightedCentroid :=
      (cluster.filterMap fun e => e.centroid.map fun c => c * e.energy).sum
    let centroidWeight :=
      ((cluster.filter fun e => e.centroid.isSome).map fun e => e.energy).sum
    let combinedEvent : AudioEvent :=
      { t := newEvent.t
        band := newEvent.band
        energy := min totalEnergy 1
        pitch := if 0 < pitchWeight then some (weightedPitch / pitchWeight) else none
        centroid :=
          if 0 < centroidWeight then some (weightedCentroid / centroidWeight) else none }
    (some combinedEvent, remainingEvents)

/-- The `push` method: cluster the incoming event and append the returned
event (when non-null) to the event list left by `clusterEvent`. -/
def push (q : EventQueue) (event : AudioEvent) : EventQueue :=
  match q.clusterEvent event with
  | (some clusteredEvent, remaining) => { q with events := remaining ++ [clusteredEvent] }
  | (none, remaining) => { q with events := remaining }

/-- The single pass of the `popSince` loop: events with `t0 ≤ t ≤ t1` go to
the relevant list, events with `t > t1` to the remaining list, events
before `t0` are discarded. -/
def popSinceSplit (t0 t1 : ℚ) : List AudioEvent → List AudioEvent × List AudioEvent
  | [] => ([], [])
  | event :: rest =>
    let (relevant, remaining) := popSinceSplit t0 t1 rest
    if t0 ≤ event.t ∧ event.t ≤ t1 then (event :: relevant, remaining)
    else if t1 < event.t then (relevant, event :: remaining)
    else (relevant, remaining)

/-- The `popSince` method: returns the relevant events and the queue with
`this.events` replaced by the remaining events. -/
def popSince (q : EventQueue) (t0 t1 : ℚ) : List AudioEvent × EventQueue :=
  let (relevantEvents, remainingEvents) := popSinceSplit t0 t1 q.events
  (relevantEvents, { q with events := remainingEvents })

/-- The `getMemoryValue` method: accumulate `energy * exp(-age/halfLife)`
over events with non-negative age and clamp at 1. -/
noncomputable def getMemoryValue (q : EventQueue) (currentTime : ℚ) : ℝ :=
  min (q.events.foldl
    (fun memory event =>
      let age := currentTime - event.t
      if 0 ≤ age then
        memory + (event.energy : ℝ) * Real.exp (-(age : ℝ) / (q.halfLife : ℝ))
      else memory)
    0) 1

/-- The `getBandEvents` method: filter by band, keeping events for three
half-lives. -/
def getBandEvents (q : EventQueue) (band : Band) (currentTime : ℚ) : List AudioEvent :=
  q.events.filter fun event =>
    decide (event.band = band) && decide (currentTime - event.t < q.halfLife * 3)

/-- The `cleanup` method: keep only events with `t` strictly above the
cutoff `currentTime - 3 * halfLife`. -/
def cleanup (q : EventQueue) (currentTime : ℚ) : EventQueue :=
  let cutoffTime := currentTime - q.halfLife * 3
  { q with events := q.events.filter fun event => decide (cutoffTime < event.t) }

/-- The `getEventCount` method. -/
def getEventCount (q : EventQueue) : ℕ :=
  q.events.length

/-- The `setHalfLife` method: unconditionally overwrite the `halfLife`
field. -/
def setHalfLife (q : EventQueue) (halfLife : ℚ) : EventQueue :=
  { q with halfLife := halfLife }

end EventQueue

/-- Concrete queue holding events at t = 0.5, 2.5 and -1, used to
instantiate the `popSince` theorem. -/
def sampleQueue : EventQueue :=
  ⟨[⟨1 / 2, Band.low, 1, none, none⟩, ⟨5 / 2, Band.mid, 1, none, none⟩,
    ⟨-1, Band.high, 1, none, none⟩], 3 / 2, 3 / 100⟩

/-- All timestamps in the list are pairwise more than `w` apart. -/
def Separated (w : ℚ) (l : List AudioEvent) : Prop :=
  l.Pairwise fun a b => w < |a.t - b.t|

/-- One mutating `EventQueue` call. -/
inductive QOp
  | push (e : AudioEvent)
  | popSince (t0 t1 : ℚ)
  | cleanup (now : ℚ)

/-- Apply one mutating call to the queue, discarding `popSince`'s return
value. -/
def applyOp (q : EventQueue) : QOp → EventQueue
  | .push e => q.push e
  | .popSince t0 t1 => (q.popSince t0 t1).2
  | .cleanup now => q.cleanup now

/-- Run a sequence of mutating calls from the given queue. -/
def runOps (q : EventQueue) : List QOp → EventQueue
  | [] => q
  | op :: ops => runOps (applyOp q op) ops

/-- Per-band onset thresholds initialized in the `AudioEngine` constructor
(`onsetThresholds = { low: 0.3, mid: 0.25, high: 0.2, full: 0.15 }`,
never reassigned). -/
def onsetThresholds : Band → ℚ
  | .low => 3 / 10
  | .mid => 1 / 4
  | .high => 1 / 5
  | .full => 3 / 20

/-- The `AudioEngine` fields read by `calculateSpectralFlux` and
`detectBandOnsets`: sample rate, buffer length, the current magnitude
spectrum `frequencyData`, the stored `previousSpectrum` (updated by
`detectOnset`), whether `previousFrame` is non-null, and the band
crossover frequencies (250 Hz and 2000 Hz). -/
structure AudioEngineState where
  sampleRate : ℚ
  bufferLength : ℕ
  frequencyData : List ℚ
  previousSpectrum : List ℚ
  hasPreviousFrame : Bool
  lowPassFreq : ℚ
  midPassFreq : ℚ

/-- Bin range `[startBin, endBin)` chosen by the `switch (band)` statement
in `calculateSpectralFlux`: defaults `0` and `bufferLength`, with
`floor(freq / nyquist * bufferLength)` crossovers for low/mid/high. -/
def bandBinRange (st : AudioEngineState) (band : Band) : ℤ × ℤ :=
  let nyquist := st.sampleRate / 2
  match band with
  | .low => (0, ⌊st.lowPassFreq / nyquist * st.bufferLength⌋)
  | .mid => (⌊st.lowPassFreq / nyquist * st.bufferLength⌋,
      ⌊st.midPassFreq / nyquist * st.bufferLength⌋)
  | .high => (⌊st.midPassFreq / nyquist * st.bufferLength⌋, st.bufferLength)
  | .full => (0, st.bufferLength)

/-- The `calculateSpectralFlux` method.  Faithful to the source, including
its bug: the local `previousSpectrum` is assigned
`this.previousFrame ? this.frequencyData : new Float32Array(bufferLength)`,
so on every reachable path it aliases the current spectrum instead of the
previous tick's. -/
def calculateSpectralFlux (st : AudioEngineState) (band : Band) : ℚ :=
  if !st.hasPreviousFrame then 0
  else
    let currentSpectrum := st.frequencyData
    let localPrevious :=
      if st.hasPreviousFrame then st.frequencyData
      else List.replicate st.bufferLength 0
    let range := bandBinRange st band
    let startBin := range.1
    let endBin := range.2
    let flux := ((List.range (endBin - startBin).toNat).map fun k =>
      let i := startBin.toNat + k
      let diff := currentSpectrum.getD i 0 - localPrevious.getD i 0
      if 0 < diff then diff else 0).sum
    flux / ((endBin - startBin : ℤ) : ℚ)

/-- The `detectBandOnsets` method: empty on the first tick, otherwise one
`(band, flux)` entry per band whose flux exceeds its threshold, in the
order low, mid, high, full. -/
def detectBandOnsets (st : AudioEngineState) : List (Band × ℚ) :=
  if !st.hasPreviousFrame then []
  else
    let lowFlux := calculateSpectralFlux st .low
    let midFlux := calculateSpectralFlux st .mid
    let highFlux := calculateSpectralFlux st .high
    let fullFlux := calculateSpectralFlux st .full
    (if onsetThresholds .low < lowFlux then [(Band.low, lowFlux)] else []) ++
    (if onsetThresholds .mid < midFlux then [(Band.mid, midFlux)] else []) ++
    (if onsetThresholds .high < highFlux then [(Band.high, highFlux)] else []) ++
    (if onsetThresholds .full < fullFlux then [(Band.full, fullFlux)] else [])

/-- A modulation source record `{id, name, value, type}`. -/
structure ModSource where
  id : String
  name : String
  value : ℝ
  type : String

/-- The `range {min, max}` object of a transform. -/
structure ModRange where
  min : ℝ
  max : ℝ

/-- A modulation transform record. -/
structure ModTransform where
  id : String
  name : String
  attack : ℝ
  decay : ℝ
  hold : ℝ
  curve : String
  range : ModRange
  polarity : String
  gate : Bool
  trigger : Bool
  jitter : ℝ

/-- A modulation target record `{id, name, category, value}`. -/
structure ModTarget where
  id : String
  name : String
  category : String
  value : ℝ

/-- A connection `{sourceId, transformId, targetId, amount}`. -/
structure ModConnection where
  sourceId : String
  transformId : String
  targetId : String
  amount : ℝ

/-- The `ModMatrix` class state: the four catalogs. -/
structure ModMatrix where
  sources : List ModSource
  transforms : List ModTransform
  targets : List ModTarget
  connections : List ModConnection

/-- The default source catalog built by the `ModMatrix` constructor. -/
def defaultSources : List ModSource :=
  [⟨"low", "Low", 0, "audio"⟩, ⟨"mid", "Mid", 0, "audio"⟩,
   ⟨"high", "High", 0, "audio"⟩, ⟨"rms", "RMS", 0, "audio"⟩,
   ⟨"peak", "Peak", 0, "audio"⟩, ⟨"onset", "Onset", 0, "audio"⟩,
   ⟨"bpm", "BPM", 0, "audio"⟩, ⟨"centroid", "Centroid", 0, "audio"⟩,
   ⟨"pitch", "Pitch", 0, "audio"⟩, ⟨"manual1", "Manual 1", 0, "manual"⟩,
   ⟨"manual2", "Manual 2", 0, "manual"⟩, ⟨"lfo1", "LFO 1", 0, "lfo"⟩,
   ⟨"lfo2", "LFO 2", 0, "lfo"⟩]

/-- The default transform catalog built by the `ModMatrix` constructor. -/
noncomputable def defaultTransforms : List ModTransform :=
  [⟨"env1", "Envelope 1", 1 / 10, 3 / 10, 1 / 10, "exponential", ⟨0, 1⟩,
      "unipolar", false, false, 0⟩,
   ⟨"env2", "Envelope 2", 1 / 20, 1 / 2, 1 / 5, "linear", ⟨-1, 1⟩,
      "bipolar", true, true, 1 / 10⟩,
   ⟨"curve1", "Curve 1", 0, 0, 0, "quantized", ⟨0, 1⟩,
      "unipolar", false, false, 0⟩]

/-- The default target catalog built by the `ModMatrix` constructor. -/
noncomputable def defaultTargets : List ModTarget :=
  [⟨"posX", "Position X", "motion", 0⟩, ⟨"posY", "Position Y", "motion", 0⟩,
   ⟨"rotation", "Rotation", "motion", 0⟩, ⟨"scale", "Scale", "motion", 1⟩,
   ⟨"tile", "Tile", "motion", 1⟩, ⟨"shake", "Shake", "motion", 0⟩,
   ⟨"waveform", "Waveform", "shape", 0⟩, ⟨"vertices", "Vertices", "shape", 3⟩,
   ⟨"pwm", "PWM", "shape", 1 / 2⟩, ⟨"noise", "Noise", "shape", 0⟩,
   ⟨"domainWarp", "Domain Warp", "shape", 0⟩, ⟨"hue", "Hue", "color", 0⟩,
   ⟨"saturation", "Saturation", "color", 1⟩, ⟨"value", "Value", "color", 1⟩,
   ⟨"gradientPos", "Gradient Position", "color", 0⟩, ⟨"bloom", "Bloom", "color", 0⟩,
   ⟨"temperature", "Temperature", "color", 0⟩, ⟨"strobe", "Strobe", "fx", 0⟩,
   ⟨"blur", "Blur", "fx", 0⟩, ⟨"edge", "Edge", "fx", 0⟩,
   ⟨"glitch", "Glitch", "fx", 0⟩,
   ⟨"chromaticAberration", "Chromatic Aberration", "fx", 0⟩,
   ⟨"fresnel", "Fresnel", "material", 0⟩, ⟨"roughness", "Roughness", "material", 1 / 2⟩,
   ⟨"metallic", "Metallic", "material", 0⟩, ⟨"maskOpen", "Mask Open", "mask", 1⟩,
   ⟨"maskFeather", "Mask Feather", "mask", 0⟩,
   ⟨"maskRotation", "Mask Rotation", "mask", 0⟩]

/-- The `ModMatrix` constructor: default catalogs, no connections. -/
noncomputable def ModMatrix.new : ModMatrix :=
  ⟨defaultSources, defaultTransforms, defaultTargets, []⟩

/-- JavaScript `Math.round`: round half toward positive infinity. -/
noncomputable def jsRound (x : ℝ) : ℝ :=
  ⌊x + 1 / 2⌋

/-- The private `applyEnvelope` method: values above the 0.1 trigger
threshold snap to 1 (attack), otherwise multiply by the transform's decay
coefficient. -/
noncomputable def applyEnvelope (value : ℝ) (transform : ModTransform) : ℝ :=
  if 1 / 10 < value then 1 else value * transform.decay

/-- The `switch (transform.curve)` statement of `applyTransform`: linear
leaves the value, exponential squares, logarithmic takes the square root,
quantized rounds to the nearest 1/8 step; any other tag (no `default`
case) leaves the value unchanged. -/
noncomputable def applyCurve (curve : String) (value : ℝ) : ℝ :=
  if curve = "linear" then value
  else if curve = "exponential" then value ^ 2
  else if curve = "logarithmic" then Real.sqrt value
  else if curve = "quantized" then jsRound (value * 8) / 8
  else value

/-- The private `applyTransform` method: optional simplified envelope (only
when both `trigger` and `gate` are set), then the curve, then the range
remap, then jitter when `jitter > 0`.  The single `Math.random()` draw is
modelled by the parameter `rand`. -/
noncomputable def applyTransform (rand value : ℝ) (transform : ModTransform) : ℝ :=
  let v1 := if transform.trigger && transform.gate then
      applyEnvelope value transform
    else value
  let v2 := applyCurve transform.curve v1
  let v3 := v2 * (transform.range.max - transform.range.min) + transform.range.min
  if 0 < transform.jitter then v3 + (rand - 1 / 2) * 2 * transform.jitter else v3

/-- Mutation of the first record matching a predicate, leaving the rest of
the list alone — the functional rendering of `list.find(...)` followed by
an in-place field assignment. -/
def replaceFirst {α : Type} (p : α → Bool) (f : α → α) : List α → List α
  | [] => []
  | a :: rest => if p a then f a :: rest else a :: replaceFirst p f rest

/-- One iteration of the `forEach` in `processConnections`: look up source,
transform and target by id; on any miss, warn and return the state
unchanged; otherwise shape the source value and write it into the found
target. -/
noncomputable def processConnection (rand : ℝ) (st : ModMatrix)
    (connection : ModConnection) : ModMatrix :=
  match st.sources.find? (fun s => s.id == connection.sourceId),
        st.transforms.find? (fun t => t.id == connection.transformId),
        st.targets.find? (fun t => t.id == connection.targetId) with
  | some source, some transform, some _ =>
    let value := source.value
    let value := applyTransform rand value transform
    let value := value * connection.amount
    let newTargets := replaceFirst (fun t => t.id == connection.targetId)
      (fun t => { t with value := value }) st.targets
    { st with targets := newTargets }
  | _, _, _ => st

/-- The `forEach` loop of `processConnections` over an explicit connection
list. -/
noncomputable def processList (rand : ℝ) : ModMatrix → List ModConnection → ModMatrix
  | st, [] => st
  | st, c :: rest => processList rand (processConnection rand st c) rest

/-- The `processConnections` method: fold the per-connection step over the
stored connection list (which no step modifies). -/
noncomputable def processConnections (rand : ℝ) (st : ModMatrix) : ModMatrix :=
  processList rand st st.connections

/-- The `updateTransform` method: `Object.assign` onto the first transform
with the given id (modelled by an arbitrary record update `upd`); no match
means no change. -/
def ModMatrix.updateTransform (st : ModMatrix) (transformId : String)
    (upd : ModTransform → ModTransform) : ModMatrix :=
  { st with transforms := replaceFirst (fun t => t.id == transformId) upd st.transforms }

/-- The `updateConnectionAmount` method: set `amount` on the first
connection matching both ids; no match means no change. -/
def ModMatrix.updateConnectionAmount (st : ModMatrix) (sourceId targetId : String)
    (amount : ℝ) : ModMatrix :=
  let newConnections :=
    replaceFirst (fun c => c.sourceId == sourceId && c.targetId == targetId)
      (fun c => { c with amount := amount }) st.connections
  { st with connections := newConnections }

/-- The `updateManualSource` method: set `value` on the first source with
the given id and type `'manual'`; no match means no change. -/
def ModMatrix.updateManualSource (st : ModMatrix) (sourceId : String)
    (value : ℝ) : ModMatrix :=
  let newSources :=
    replaceFirst (fun s => s.id == sourceId && s.type == "manual")
      (fun s => { s with value := value }) st.sources
  { st with sources := newSources }

/-- Sources of the C7 scenario: the defaults with `low.value = 0.5`. -/
noncomputable def scenarioSources : List ModSource :=
  defaultSources.map fun s => if s.id == "low" then { s with value := 1 / 2 } else s

/-- Matrix of the C7 scenario: default catalogs, `low.value = 0.5`, one
connection low → env1 → scale with amount 0.8 (env1 is the default
exponential-curve transform with unipolar range [0,1], no trigger/gate,
zero jitter). -/
noncomputable def scenarioMatrix : ModMatrix :=
  { sources := scenarioSources, transforms := defaultTransforms,
    targets := defaultTargets, connections := [⟨"low", "env1", "scale", 4 / 5⟩] }

/-- Pushing a single event into the fresh queue appends it unchanged. -/
theorem push_new (hl : ℚ) (e : AudioEvent) :
    (EventQueue.new hl).push e =
      { events := [e], halfLife := hl, clusterWindow := 3 / 100 } := by
  simp [EventQueue.push, EventQueue.clusterEvent, EventQueue.new]

/-- C1: pushing two events whose times differ by at most 30 ms into an empty
queue leaves exactly one retained event; its energy is `min 1 (e1.energy +
e2.energy)`, its `t` and `band` are the newest event's, and its pitch
(resp. centroid) is the energy-weighted average of the cluster members that
carry one — absent when none does. -/
theorem push_merges_within_window (hl : ℚ) (e1 e2 : AudioEvent)
    (h : |e1.t - e2.t| ≤ 3 / 100) :
    ∃ m : AudioEvent,
      (((EventQueue.new hl).push e1).push e2).events = [m] ∧
      m.t = e2.t ∧ m.band = e2.band ∧
      m.energy = min 1 (e1.energy + e2.energy) ∧
      (([e1, e2].filter fun e => e.pitch.isSome) = [] → m.pitch = none) ∧
      (0 < (([e1, e2].filter fun e => e.pitch.isSome).map fun e => e.energy).sum →
        m.pitch = some
          (([e1, e2].filterMap fun e => e.pitch.map fun p => p * e.energy).sum /
            (([e1, e2].filter fun e => e.pitch.isSome).map fun e => e.energy).sum)) ∧
      (([e1, e2].filter fun e => e.centroid.isSome) = [] → m.centroid = none) ∧
      (0 < (([e1, e2].filter fun e => e.centroid.isSome).map fun e => e.energy).sum →
        m.centroid = some
          (([e1, e2].filterMap fun e => e.centroid.map fun c => c * e.energy).sum /
            (([e1, e2].filter fun e => e.centroid.isSome).map fun e => e.energy).sum)) := by
  have h1 : e2.t - 3 / 100 ≤ e1.t ∧ e1.t ≤ e2.t + 3 / 100 := by
    rw [abs_sub_le_iff] at h
    exact ⟨by linarith [h.2], by linarith [h.1]⟩
  rw [push_new]
  have hc : EventQueue.inCluster
      { events := [e1], halfLife := hl, clusterWindow := 3 / 100 } e2 e1 = true := by
    simpa [EventQueue.inCluster] using h1
  refine ⟨{ t := e2.t, band := e2.band,
            energy := min (e1.energy + e2.energy) 1,
            pitch :=
              if 0 < (([e1, e2].filter fun e => e.pitch.isSome).map fun e => e.energy).sum then
                some
                  (([e1, e2].filterMap fun e => e.pitch.map fun p => p * e.energy).sum /
                    (([e1, e2].filter fun e => e.pitch.isSome).map fun e => e.energy).sum)
              else none,
            centroid :=
              if 0 < (([e1, e2].filter fun e => e.centroid.isSome).map fun e => e.energy).sum
              then
                some
                  (([e1, e2].filterMap fun e => e.centroid.map fun c => c * e.energy).sum /
                    (([e1, e2].filter fun e => e.centroid.isSome).map fun e => e.energy).sum)
              else none }, ?_, rfl, rfl, min_comm _ _, ?_, ?_, ?_, ?_⟩
  · simp [EventQueue.push, EventQueue.clusterEvent, List.filter, hc]
  · intro hp
    simp only [hp, List.map_nil, List.sum_nil, lt_self_iff_false, if_false]
  · intro hp
    simp only [hp, if_true]
  · intro hp
    simp only [hp, List.map_nil, List.sum_nil, lt_self_iff_false, if_false]
  · intro hp
    simp only [hp, if_true]

/-- Witness for C1 at the spec scenario: pushing `{t=0, energy=0.4}` and
`{t=0.02, energy=0.5, band='low'}` leaves exactly one retained event of
energy 0.9. -/
theorem push_merges_within_window_witness :
    |(0 : ℚ) - 1 / 50| ≤ 3 / 100 ∧
    ∃ m : AudioEvent,
      (((EventQueue.new (3 / 2)).push ⟨0, Band.full, 2 / 5, none, none⟩).push
          ⟨1 / 50, Band.low, 1 / 2, none, none⟩).events = [m] ∧
      m.energy = 9 / 10 := by
  refine ⟨by rw [abs_le]; constructor <;> norm_num, ?_⟩
  obtain ⟨m, hm, -, -, he, -, -, -, -⟩ :=
    push_merges_within_window (3 / 2) ⟨0, Band.full, 2 / 5, none, none⟩
      ⟨1 / 50, Band.low, 1 / 2, none, none⟩
      (by rw [abs_le]; constructor <;> norm_num)
  refine ⟨m, hm, ?_⟩
  rw [he]
  norm_num [min_def]

/-- The relevant list of `popSinceSplit` is the sublist with `t0 ≤ t ≤ t1`. -/
theorem popSinceSplit_fst (t0 t1 : ℚ) (l : List AudioEvent) :
    (EventQueue.popSinceSplit t0 t1 l).1 =
      l.filter fun e => decide (t0 ≤ e.t ∧ e.t ≤ t1) := by
  induction l with
  | nil => rfl
  | cons e rest ih =>
    by_cases h : t0 ≤ e.t ∧ e.t ≤ t1
    · simp [EventQueue.popSinceSplit, h, ih]
    · by_cases h2 : t1 < e.t <;> simp [EventQueue.popSinceSplit, h, h2, ih]

/-- The remaining list of `popSinceSplit` is the sublist with `t1 < t`. -/
theorem popSinceSplit_snd (t0 t1 : ℚ) (l : List AudioEvent) :
    (EventQueue.popSinceSplit t0 t1 l).2 = l.filter fun e => decide (t1 < e.t) := by
  induction l with
  | nil => rfl
  | cons e rest ih =>
    by_cases h : t0 ≤ e.t ∧ e.t ≤ t1
    · have : ¬ t1 < e.t := not_lt.mpr h.2
      simp [EventQueue.popSinceSplit, h, this, ih]
    · by_cases h2 : t1 < e.t <;> simp [EventQueue.popSinceSplit, h, h2, ih]

/-- Filtering one list by two mutually exclusive predicates and
concatenating is a permutation of filtering by their disjunction. -/
theorem filter_append_perm_of_disjoint {α : Type} (p q : α → Bool) (l : List α)
    (hdisj : ∀ a, ¬(p a = true ∧ q a = true)) :
    List.Perm (l.filter p ++ l.filter q) (l.filter fun a => p a || q a) := by
  induction l with
  | nil => simp
  | cons a rest ih =>
    by_cases hp : p a = true
    · have hq : q a = false := by
        rcases Bool.eq_false_or_eq_true (q a) with h | h
        · exact absurd ⟨hp, h⟩ (hdisj a)
        · exact h
      simpa [hp, hq] using ih.cons a
    · have hp' : p a = false := Bool.eq_false_iff.mpr hp
      by_cases hq : q a = true
      · have hmid : List.Perm (rest.filter p ++ a :: rest.filter q)
            (a :: (rest.filter p ++ rest.filter q)) := List.perm_middle
        simpa [hp', hq] using hmid.trans (ih.cons a)
      · have hq' : q a = false := Bool.eq_false_iff.mpr hq
        simpa [hp', hq'] using ih

/-- C2: `popSince(t0, t1)` returns exactly the retained events with
`t ∈ [t0, t1]` (so never one with `t < t0` or `t > t1`), retains exactly
those with `t > t1` (events strictly before `t0` are dropped), and two
calls over disjoint adjacent windows partition the events with `t` inside
the union without duplication. -/
theorem popSince_window_partition (q : EventQueue) (t0 t1 t0' t1' : ℚ)
    (hadj : t1 < t0') :
    (q.popSince t0 t1).1 = (q.events.filter fun e => decide (t0 ≤ e.t ∧ e.t ≤ t1)) ∧
    (∀ e ∈ (q.popSince t0 t1).1, t0 ≤ e.t ∧ e.t ≤ t1) ∧
    (q.popSince t0 t1).2.events = (q.events.filter fun e => decide (t1 < e.t)) ∧
    List.Perm ((q.popSince t0 t1).1 ++ ((q.popSince t0 t1).2.popSince t0' t1').1)
      (q.events.filter fun e =>
        decide ((t0 ≤ e.t ∧ e.t ≤ t1) ∨ (t0' ≤ e.t ∧ e.t ≤ t1'))) := by
  have hfst : (q.popSince t0 t1).1 =
      q.events.filter fun e => decide (t0 ≤ e.t ∧ e.t ≤ t1) :=
    popSinceSplit_fst t0 t1 q.events
  have hsnd : (q.popSince t0 t1).2.events =
      q.events.filter fun e => decide (t1 < e.t) :=
    popSinceSplit_snd t0 t1 q.events
  refine ⟨hfst, ?_, hsnd, ?_⟩
  · intro e he
    rw [hfst] at he
    have := List.of_mem_filter he
    exact of_decide_eq_true this
  · have hstep : ((q.popSince t0 t1).2.popSince t0' t1').1 =
        (q.popSince t0 t1).2.events.filter fun e => decide (t0' ≤ e.t ∧ e.t ≤ t1') :=
      popSinceSplit_fst t0' t1' (q.popSince t0 t1).2.events
    have hsecond : ((q.popSince t0 t1).2.popSince t0' t1').1 =
        q.events.filter fun e => decide (t0' ≤ e.t ∧ e.t ≤ t1') := by
      rw [hstep, hsnd, List.filter_filter]
      refine List.filter_congr ?_
      intro a _
      by_cases h : t0' ≤ a.t ∧ a.t ≤ t1'
      · have h1 : t1 < a.t := lt_of_lt_of_le hadj h.1
        simp [h, h1]
      · simp [h]
    rw [hfst, hsecond]
    have hperm := filter_append_perm_of_disjoint
      (fun e => decide (t0 ≤ e.t ∧ e.t ≤ t1))
      (fun e => decide (t0' ≤ e.t ∧ e.t ≤ t1')) q.events ?_
    · refine hperm.trans ?_
      refine List.Perm.of_eq (List.filter_congr ?_)
      intro a _
      by_cases h1 : t0 ≤ a.t ∧ a.t ≤ t1 <;> by_cases h2 : t0' ≤ a.t ∧ a.t ≤ t1' <;>
        simp [h1, h2]
    · intro a ⟨h1, h2⟩
      have h1' := of_decide_eq_true h1
      have h2' := of_decide_eq_true h2
      linarith [h1'.2, h2'.1]

/-- Witness for C2 on a concrete three-event queue and the adjacent windows
`[0,1]` and `[2,3]`. -/
theorem popSince_window_partition_witness :
    ((1 : ℚ) < 2) ∧
    List.Perm
      ((sampleQueue.popSince 0 1).1 ++
        ((sampleQueue.popSince 0 1).2.popSince 2 3).1)
      (sampleQueue.events.filter fun e =>
        decide ((0 ≤ e.t ∧ e.t ≤ 1) ∨ (2 ≤ e.t ∧ e.t ≤ 3))) :=
  ⟨by norm_num, (popSince_window_partition sampleQueue 0 1 2 3 (by norm_num)).2.2.2⟩

/-- The accumulation loop of `getMemoryValue` equals the starting value plus
the sum of decayed energies over the events with `t ≤ now`. -/
theorem memory_foldl_eq (now hl : ℚ) (l : List AudioEvent) (init : ℝ) :
    l.foldl (fun memory event =>
        if 0 ≤ now - event.t then
          memory + (event.energy : ℝ) *
            Real.exp (-((now : ℝ) - (event.t : ℝ)) / (hl : ℝ))
        else memory) init =
      init + ((l.filter fun e => decide (e.t ≤ now)).map
        (fun e => (e.energy : ℝ) *
          Real.exp (-((now : ℝ) - (e.t : ℝ)) / (hl : ℝ)))).sum := by
  induction l generalizing init with
  | nil => simp
  | cons e rest ih =>
    by_cases h : e.t ≤ now
    · have h0 : (0 : ℚ) ≤ now - e.t := by linarith
      rw [List.foldl_cons, if_pos h0, ih]
      simp [List.filter_cons, h]
      ring
    · have h0 : ¬ (0 : ℚ) ≤ now - e.t := by
        intro hc
        exact h (by linarith)
      rw [List.foldl_cons, if_neg h0, ih]
      simp [List.filter_cons, h]

/-- Closed form of `getMemoryValue`: the clamp applied to the decayed-energy
sum over the events not in the future. -/
theorem getMemoryValue_eq (q : EventQueue) (now : ℚ) :
    q.getMemoryValue now =
      min (((q.events.filter fun e => decide (e.t ≤ now)).map
        (fun e => (e.energy : ℝ) *
          Real.exp (-((now : ℝ) - (e.t : ℝ)) / (q.halfLife : ℝ)))).sum) 1 := by
  simp only [EventQueue.getMemoryValue]
  push_cast
  rw [memory_foldl_eq now q.halfLife q.events 0, zero_add]

/-- C3: `getMemoryValue(now)` equals `min 1` of the sum of
`energy * exp(-(now - t)/halfLife)` over the retained events with
`t ≤ now` (later events contribute nothing), and when every retained
energy lies in `[0,1]` the result lies in `[0,1]`. -/
theorem getMemoryValue_formula (q : EventQueue) (now : ℚ) :
    q.getMemoryValue now =
      min 1 (((q.events.filter fun e => decide (e.t ≤ now)).map
        (fun e => (e.energy : ℝ) *
          Real.exp (-((now : ℝ) - (e.t : ℝ)) / (q.halfLife : ℝ)))).sum) ∧
    ((∀ e ∈ q.events, 0 ≤ e.energy ∧ e.energy ≤ 1) →
      0 ≤ q.getMemoryValue now ∧ q.getMemoryValue now ≤ 1) := by
  have hval := getMemoryValue_eq q now
  constructor
  · rw [hval, min_comm]
  · intro hE
    have hsum : 0 ≤ ((q.events.filter fun e => decide (e.t ≤ now)).map
        (fun e => (e.energy : ℝ) *
          Real.exp (-((now : ℝ) - (e.t : ℝ)) / (q.halfLife : ℝ)))).sum := by
      refine List.sum_nonneg ?_
      intro x hx
      obtain ⟨e, he, rfl⟩ := List.mem_map.mp hx
      have hmem : e ∈ q.events := (List.mem_filter.mp he).1
      have hnn : (0 : ℝ) ≤ (e.energy : ℝ) := by
        exact_mod_cast (hE e hmem).1
      exact mul_nonneg hnn (Real.exp_pos _).le
    rw [hval]
    exact ⟨le_min hsum zero_le_one, min_le_right _ _⟩

/-- Witness for C3 on a one-event queue whose energy lies in `[0,1]`. -/
theorem getMemoryValue_formula_witness :
    (∀ e ∈ (⟨[⟨0, Band.low, 1, none, none⟩], 3 / 2, 3 / 100⟩ : EventQueue).events,
      0 ≤ e.energy ∧ e.energy ≤ 1) ∧
    (0 ≤ (⟨[⟨0, Band.low, 1, none, none⟩], 3 / 2, 3 / 100⟩ :
        EventQueue).getMemoryValue (3 / 2) ∧
      (⟨[⟨0, Band.low, 1, none, none⟩], 3 / 2, 3 / 100⟩ :
        EventQueue).getMemoryValue (3 / 2) ≤ 1) := by
  have hE : ∀ e ∈ (⟨[⟨0, Band.low, 1, none, none⟩], 3 / 2, 3 / 100⟩ :
      EventQueue).events, 0 ≤ e.energy ∧ e.energy ≤ 1 := by
    intro e he
    simp only [List.mem_singleton] at he
    subst he
    exact ⟨by norm_num, by norm_num⟩
  exact ⟨hE, (getMemoryValue_formula
    ⟨[⟨0, Band.low, 1, none, none⟩], 3 / 2, 3 / 100⟩ (3 / 2)).2 hE⟩

/-- C4 evaluated on the code: with halfLife = 1.5 and one unit-energy event
at t = 0, `getMemoryValue(1.5)` is `exp(-1) ≈ 0.368` and
`getMemoryValue(3.0)` is `exp(-2) ≈ 0.135`, both outside the 1e-3 band
around the claimed 0.5 and 0.25.  The code decays by a factor `e` (not 2)
per half-life; a true half-life decay would use `exp(-age·ln 2/halfLife)`. -/
theorem getMemoryValue_halfLife_scenario :
    ((EventQueue.new (3 / 2)).push ⟨0, Band.low, 1, none, none⟩).getMemoryValue (3 / 2)
        = Real.exp (-1) ∧
    Real.exp (-1) < 1 / 2 - 1 / 1000 ∧
    ((EventQueue.new (3 / 2)).push ⟨0, Band.low, 1, none, none⟩).getMemoryValue 3
        = Real.exp (-2) ∧
    Real.exp (-2) < 1 / 4 - 1 / 1000 := by
  have he1 : (2.7182818283 : ℝ) < Real.exp 1 := Real.exp_one_gt_d9
  have hpos : (0 : ℝ) < Real.exp 1 := Real.exp_pos 1
  have hinv : Real.exp 1 * (Real.exp 1)⁻¹ = 1 := mul_inv_cancel₀ (ne_of_gt hpos)
  have hb1 : Real.exp (-1) < 1 / 2 - 1 / 1000 := by
    rw [Real.exp_neg]
    nlinarith [inv_pos.mpr hpos]
  have hexp2 : Real.exp 2 = Real.exp 1 * Real.exp 1 := by
    rw [← Real.exp_add]
    norm_num
  have hpos2 : (0 : ℝ) < Real.exp 2 := Real.exp_pos 2
  have hinv2 : Real.exp 2 * (Real.exp 2)⁻¹ = 1 := mul_inv_cancel₀ (ne_of_gt hpos2)
  have hb2 : Real.exp (-2) < 1 / 4 - 1 / 1000 := by
    rw [Real.exp_neg]
    nlinarith [inv_pos.mpr hpos2]
  refine ⟨?_, hb1, ?_, hb2⟩
  · rw [push_new]
    simp only [EventQueue.getMemoryValue]
    norm_num
  · rw [push_new]
    simp only [EventQueue.getMemoryValue]
    norm_num

/-- Shape of the event list after `push`: the events outside the ±30 ms
window of the new event, followed by one event carrying the new event's
time (either the new event itself or the merged cluster event). -/
theorem push_events_shape (q : EventQueue) (e : AudioEvent) :
    ∃ m : AudioEvent,
      (q.push e).events = (q.events.filter fun x => !q.inCluster e x) ++ [m] ∧
      m.t = e.t := by
  simp only [EventQueue.push, EventQueue.clusterEvent]
  by_cases h : (q.events.filter fun x => q.inCluster e x).isEmpty
  · rw [if_pos h]
    exact ⟨e, rfl, rfl⟩
  · rw [if_neg h]
    exact ⟨_, rfl, rfl⟩

/-- No operation changes the cluster window. -/
theorem applyOp_clusterWindow (q : EventQueue) (op : QOp) :
    (applyOp q op).clusterWindow = q.clusterWindow := by
  cases op with
  | push e =>
    show (q.push e).clusterWindow = q.clusterWindow
    unfold EventQueue.push
    rcases q.clusterEvent e with ⟨_ | m, rem⟩ <;> rfl
  | popSince t0 t1 => rfl
  | cleanup now => rfl

/-- Pushing preserves pairwise separation by the cluster window: the kept
events are all outside the new event's window, and they were separated
already. -/
theorem separated_push (q : EventQueue) (e : AudioEvent)
    (hsep : Separated q.clusterWindow q.events) :
    Separated q.clusterWindow (q.push e).events := by
  obtain ⟨m, hev, hmt⟩ := push_events_shape q e
  rw [Separated, hev, List.pairwise_append]
  refine ⟨hsep.sublist (List.filter_sublist _), List.pairwise_singleton _ _, ?_⟩
  intro a ha b hb
  have hb' : b = m := List.mem_singleton.mp hb
  subst hb'
  rw [hmt]
  have haf := List.of_mem_filter ha
  have hnc : ¬ (e.t - q.clusterWindow ≤ a.t ∧ a.t ≤ e.t + q.clusterWindow) := by
    intro hc
    simp [EventQueue.inCluster, hc.1, hc.2] at haf
  rcases not_and_or.mp hnc with h1 | h1
  · refine lt_abs.mpr (Or.inr ?_)
    have := not_le.mp h1
    linarith
  · refine lt_abs.mpr (Or.inl ?_)
    have := not_le.mp h1
    linarith

/-- Every mutating call preserves pairwise separation by the cluster
window. -/
theorem separated_applyOp (q : EventQueue) (op : QOp)
    (hsep : Separated q.clusterWindow q.events) :
    Separated q.clusterWindow (applyOp q op).events := by
  cases op with
  | push e => exact separated_push q e hsep
  | popSince t0 t1 =>
    have h : (q.popSince t0 t1).2.events = q.events.filter fun e => decide (t1 < e.t) :=
      popSinceSplit_snd t0 t1 q.events
    show Separated q.clusterWindow (q.popSince t0 t1).2.events
    rw [h]
    exact hsep.sublist (List.filter_sublist _)
  | cleanup now =>
    show Separated q.clusterWindow (q.cleanup now).events
    exact hsep.sublist (List.filter_sublist _)

/-- Running any call sequence preserves separation relative to the (fixed)
cluster window. -/
theorem separated_runOps (q : EventQueue) (ops : List QOp)
    (hsep : Separated q.clusterWindow q.events) :
    Separated q.clusterWindow (runOps q ops).events := by
  induction ops generalizing q with
  | nil => exact hsep
  | cons op ops ih =>
    rw [runOps]
    have h1 := separated_applyOp q op hsep
    have h2 := ih (applyOp q op) (by rwa [applyOp_clusterWindow])
    rwa [applyOp_clusterWindow] at h2

/-- C6: starting from an empty queue, after any sequence of push, popSince
and cleanup calls, any two distinct retained events are more than 30 ms
apart; and two events pushed outside each other's 30 ms window are both
retained as separate entries. -/
theorem cluster_window_separation :
    (∀ (hl : ℚ) (ops : List QOp),
      Separated (3 / 100) (runOps (EventQueue.new hl) ops).events) ∧
    (∀ (hl : ℚ) (e1 e2 : AudioEvent), 3 / 100 < |e1.t - e2.t| →
      (((EventQueue.new hl).push e1).push e2).events = [e1, e2]) := by
  constructor
  · intro hl ops
    have h0 : Separated (EventQueue.new hl).clusterWindow (EventQueue.new hl).events :=
      List.Pairwise.nil
    exact separated_runOps (EventQueue.new hl) ops h0
  · intro hl e1 e2 h
    rw [push_new]
    have hc : EventQueue.inCluster
        { events := [e1], halfLife := hl, clusterWindow := 3 / 100 } e2 e1 = false := by
      rcases lt_abs.mp h with h2 | h2
      · simp only [EventQueue.inCluster, decide_eq_false_iff_not, not_and, not_le]
        intro _
        linarith
      · simp only [EventQueue.inCluster, decide_eq_false_iff_not, not_and, not_le]
        intro h3
        linarith
    simp [EventQueue.push, EventQueue.clusterEvent, List.filter, hc]

/-- Witness for C6: two unit events one second apart are both retained. -/
theorem cluster_window_separation_witness :
    (3 / 100 < |(0 : ℚ) - 1|) ∧
    (((EventQueue.new (3 / 2)).push ⟨0, Band.low, 1, none, none⟩).push
        ⟨1, Band.mid, 1, none, none⟩).events =
      [⟨0, Band.low, 1, none, none⟩, ⟨1, Band.mid, 1, none, none⟩] :=
  ⟨by rw [show ((0 : ℚ) - 1) = -1 by norm_num, abs_neg, abs_one]; norm_num,
    cluster_window_separation.2 (3 / 2) ⟨0, Band.low, 1, none, none⟩
      ⟨1, Band.mid, 1, none, none⟩
      (by rw [show ((0 : ℚ) - 1) = -1 by norm_num, abs_neg, abs_one]; norm_num)⟩

/-- Counterexample to C9: `setHalfLife(-1)` is not rejected.  On a queue
with half-life 1.5 and one unit event at t = 0, the stored half-life
becomes -1 and `getMemoryValue(1.5)` changes from `exp(-1)` to 1. -/
theorem setHalfLife_not_rejected :
    ((-1 : ℚ) ≤ 0) ∧
    ((⟨[⟨0, Band.low, 1, none, none⟩], 3 / 2, 3 / 100⟩ :
        EventQueue).setHalfLife (-1)).halfLife ≠
      (⟨[⟨0, Band.low, 1, none, none⟩], 3 / 2, 3 / 100⟩ : EventQueue).halfLife ∧
    ((⟨[⟨0, Band.low, 1, none, none⟩], 3 / 2, 3 / 100⟩ :
        EventQueue).setHalfLife (-1)).getMemoryValue (3 / 2) ≠
      (⟨[⟨0, Band.low, 1, none, none⟩], 3 / 2, 3 / 100⟩ :
        EventQueue).getMemoryValue (3 / 2) := by
  refine ⟨by norm_num, by norm_num [EventQueue.setHalfLife], ?_⟩
  have hnew : ((⟨[⟨0, Band.low, 1, none, none⟩], 3 / 2, 3 / 100⟩ :
      EventQueue).setHalfLife (-1)).getMemoryValue (3 / 2) = 1 := by
    simp only [EventQueue.setHalfLife, EventQueue.getMemoryValue]
    norm_num
  have hold : (⟨[⟨0, Band.low, 1, none, none⟩], 3 / 2, 3 / 100⟩ :
      EventQueue).getMemoryValue (3 / 2) = Real.exp (-1) := by
    simp only [EventQueue.getMemoryValue]
    norm_num
  rw [hnew, hold]
  intro hc
  have h1 : Real.exp (-1) < 1 := Real.exp_lt_one_iff.mpr (by norm_num)
  rw [← hc] at h1
  exact lt_irrefl 1 h1

/-- C9 amended: `setHalfLife(h)` accepts any value (including non-positive
ones), overwriting the stored half-life while keeping the events; the new
half-life governs subsequent `getMemoryValue`, `cleanup` and
`getBandEvents` calls. -/
theorem setHalfLife_overwrites (q : EventQueue) (h now : ℚ) (band : Band) :
    (q.setHalfLife h).halfLife = h ∧
    (q.setHalfLife h).events = q.events ∧
    (q.setHalfLife h).getMemoryValue now =
      min (((q.events.filter fun e => decide (e.t ≤ now)).map
        (fun e => (e.energy : ℝ) *
          Real.exp (-((now : ℝ) - (e.t : ℝ)) / (h : ℝ)))).sum) 1 ∧
    ((q.setHalfLife h).cleanup now).events =
      q.events.filter (fun e => decide (now - h * 3 < e.t)) ∧
    (q.setHalfLife h).getBandEvents band now =
      q.events.filter fun e =>
        decide (e.band = band) && decide (now - e.t < h * 3) :=
  ⟨rfl, rfl, getMemoryValue_eq (q.setHalfLife h) now, rfl, rfl⟩

/-- Counterexample to C10: an event exactly at the `3 × halfLife` boundary
(the claim says it is kept) is removed by `cleanup`. -/
theorem cleanup_drops_boundary_event :
    ((9 : ℚ) / 2 - 0 = 3 * (3 / 2)) ∧
    ((⟨[⟨0, Band.low, 1, none, none⟩], 3 / 2, 3 / 100⟩ :
        EventQueue).cleanup (9 / 2)).events = [] := by
  refine ⟨by norm_num, ?_⟩
  simp only [EventQueue.cleanup]
  norm_num

/-- C10 amended: `cleanup(now)` removes all and only the events with
`now - t ≥ 3 × halfLife` — events strictly newer than the boundary are
kept, and an event exactly at the boundary is removed. -/
theorem cleanup_keeps_strictly_recent (q : EventQueue) (now : ℚ) :
    (q.cleanup now).events =
      q.events.filter fun e => decide (now - e.t < 3 * q.halfLife) := by
  simp only [EventQueue.cleanup]
  refine List.filter_congr ?_
  intro a _
  by_cases h : now - q.halfLife * 3 < a.t
  · have h2 : now - a.t < 3 * q.halfLife := by linarith
    simp [h, h2]
  · have h2 : ¬ (now - a.t < 3 * q.halfLife) := fun hc => h (by linarith)
    simp [h, h2]

/-- C5 evaluated on the code: because `calculateSpectralFlux` subtracts the
current spectrum from itself, every band's flux is 0 on every state, and
`detectBandOnsets` never emits an onset — regardless of how the spectrum
changed since the previous tick. -/
theorem detectBandOnsets_never_fires :
    (∀ (st : AudioEngineState) (band : Band), calculateSpectralFlux st band = 0) ∧
    (∀ st : AudioEngineState, detectBandOnsets st = []) := by
  have hflux : ∀ (st : AudioEngineState) (band : Band),
      calculateSpectralFlux st band = 0 := by
    intro st band
    unfold calculateSpectralFlux
    by_cases h : st.hasPreviousFrame
    · simp [h, sub_self]
    · simp [h]
  refine ⟨hflux, ?_⟩
  intro st
  unfold detectBandOnsets
  by_cases h : st.hasPreviousFrame
  · simp [h, hflux, onsetThresholds]
    norm_num
  · simp [h]

/-- C7: linear is the identity, exponential squares, logarithmic takes the
square root, quantized rounds to the nearest 1/8 step; with trigger/gate
off and zero jitter `applyTransform` applies the curve before the range
remap; and in the scenario the connection amount is multiplied last,
driving the 'scale' target to `0.8 * 0.5² = 0.2`. -/
theorem modMatrix_curve_pipeline :
    (∀ v : ℝ, applyCurve "linear" v = v ∧ applyCurve "exponential" v = v ^ 2 ∧
      applyCurve "logarithmic" v = Real.sqrt v ∧
      applyCurve "quantized" v = jsRound (v * 8) / 8) ∧
    (∀ (rand v : ℝ) (t : ModTransform), t.trigger = false → t.jitter ≤ 0 →
      applyTransform rand v t =
        applyCurve t.curve v * (t.range.max - t.range.min) + t.range.min) ∧
    (∀ rand : ℝ,
      (processConnections rand scenarioMatrix).targets.find? (fun t => t.id == "scale") =
        some { id := "scale", name := "Scale", category := "motion", value := 1 / 5 }) := by
  refine ⟨?_, ?_, ?_⟩
  · intro v
    exact ⟨by simp [applyCurve], by simp [applyCurve], by simp [applyCurve],
      by simp [applyCurve]⟩
  · intro rand v t htr hj
    have hj' : ¬ 0 < t.jitter := not_lt.mpr hj
    simp [applyTransform, htr, hj']
  · intro rand
    show (processList rand scenarioMatrix scenarioMatrix.connections).targets.find? _ = _
    simp only [scenarioMatrix, scenarioSources, defaultSources, defaultTransforms,
      defaultTargets, processList, processConnection, List.find?, List.map,
      applyTransform, applyEnvelope, applyCurve, replaceFirst]
    norm_num [List.find?, replaceFirst]
    simp

/-- Witness for C7: on the default env1 transform (trigger/gate off, zero
jitter, exponential curve, range [0,1]) the transform pipeline at 0.5
yields 0.25. -/
theorem modMatrix_curve_pipeline_witness :
    ((⟨"env1", "Envelope 1", 1 / 10, 3 / 10, 1 / 10, "exponential", ⟨0, 1⟩,
        "unipolar", false, false, 0⟩ : ModTransform).trigger = false) ∧
    ((⟨"env1", "Envelope 1", 1 / 10, 3 / 10, 1 / 10, "exponential", ⟨0, 1⟩,
        "unipolar", false, false, 0⟩ : ModTransform).jitter ≤ 0) ∧
    applyTransform 0 (1 / 2)
      ⟨"env1", "Envelope 1", 1 / 10, 3 / 10, 1 / 10, "exponential", ⟨0, 1⟩,
        "unipolar", false, false, 0⟩ = 1 / 4 := by
  refine ⟨rfl, le_refl 0, ?_⟩
  rw [modMatrix_curve_pipeline.2.1 0 (1 / 2) _ rfl (le_refl 0)]
  have h := (modMatrix_curve_pipeline.1 ((1 : ℝ) / 2)).2.1
  show applyCurve "exponential" (1 / 2) * ((1 : ℝ) - 0) + 0 = 1 / 4
  rw [h]
  norm_num

/-- Replacing the first match is the identity when nothing matches. -/
theorem replaceFirst_of_find_none {α : Type} (p : α → Bool) (f : α → α)
    (l : List α) (h : l.find? p = none) : replaceFirst p f l = l := by
  induction l with
  | nil => rfl
  | cons a rest ih =>
    by_cases hp : p a = true
    · rw [List.find?_cons_of_pos _ hp] at h
      exact absurd h (by simp)
    · have hp' : p a = false := Bool.eq_false_iff.mpr hp
      rw [List.find?_cons_of_neg _ (by simp [hp'])] at h
      simp [replaceFirst, hp', ih h]

/-- C8: a connection whose source, transform or target id resolves to
nothing is skipped — the state is unchanged by it and the rest of the list
is still processed; `updateTransform`, `updateConnectionAmount` and
`updateManualSource` with unmatched ids are no-ops. -/
theorem modMatrix_missing_ids_are_noops :
    (∀ (rand : ℝ) (st : ModMatrix) (c : ModConnection) (rest : List ModConnection),
      (st.sources.find? (fun s => s.id == c.sourceId) = none ∨
        st.transforms.find? (fun t => t.id == c.transformId) = none ∨
        st.targets.find? (fun t => t.id == c.targetId) = none) →
      processList rand st (c :: rest) = processList rand st rest) ∧
    (∀ (st : ModMatrix) (transformId : String) (upd : ModTransform → ModTransform),
      st.transforms.find? (fun t => t.id == transformId) = none →
      st.updateTransform transformId upd = st) ∧
    (∀ (st : ModMatrix) (sourceId targetId : String) (amount : ℝ),
      st.connections.find?
        (fun c => c.sourceId == sourceId && c.targetId == targetId) = none →
      st.updateConnectionAmount sourceId targetId amount = st) ∧
    (∀ (st : ModMatrix) (sourceId : String) (value : ℝ),
      st.sources.find? (fun s => s.id == sourceId && s.type == "manual") = none →
      st.updateManualSource sourceId value = st) := by
  refine ⟨?_, ?_, ?_, ?_⟩
  · intro rand st c rest h
    have hpc : processConnection rand st c = st := by
      unfold processConnection
      cases hs : st.sources.find? (fun s => s.id == c.sourceId) with
      | none => rfl
      | some s =>
        cases ht : st.transforms.find? (fun t => t.id == c.transformId) with
        | none => rfl
        | some t =>
          cases htg : st.targets.find? (fun t => t.id == c.targetId) with
          | none => rfl
          | some tg =>
            rcases h with h | h | h
            · rw [h] at hs
              cases hs
            · rw [h] at ht
              cases ht
            · rw [h] at htg
              cases htg
    calc processList rand st (c :: rest)
        = processList rand (processConnection rand st c) rest := rfl
      _ = processList rand st rest := by rw [hpc]
  · intro st transformId upd h
    show { st with transforms := _ } = st
    rw [replaceFirst_of_find_none _ _ _ h]
  · intro st sourceId targetId amount h
    show { st with connections := _ } = st
    rw [replaceFirst_of_find_none _ _ _ h]
  · intro st sourceId value h
    show { st with sources := _ } = st
    rw [replaceFirst_of_find_none _ _ _ h]

/-- Witness for C8 on the default matrix: a connection with an unknown
source id is skipped, and the three update methods called with unmatched
ids leave the matrix unchanged. -/
theorem modMatrix_missing_ids_witness :
    (ModMatrix.new.sources.find? (fun s => s.id == "bogus") = none ∨
      ModMatrix.new.transforms.find? (fun t => t.id == "env1") = none ∨
      ModMatrix.new.targets.find? (fun t => t.id == "scale") = none) ∧
    processList 0 ModMatrix.new [⟨"bogus", "env1", "scale", 1⟩] =
      processList 0 ModMatrix.new [] ∧
    ModMatrix.new.updateTransform "bogus" id = ModMatrix.new ∧
    ModMatrix.new.updateConnectionAmount "low" "scale" 1 = ModMatrix.new ∧
    ModMatrix.new.updateManualSource "lfo1" 1 = ModMatrix.new := by
  have hs : ModMatrix.new.sources.find? (fun s => s.id == "bogus") = none := by
    simp [ModMatrix.new, defaultSources]
  have ht : ModMatrix.new.transforms.find? (fun t => t.id == "bogus") = none := by
    simp [ModMatrix.new, defaultTransforms]
  have hc : ModMatrix.new.connections.find?
      (fun c => c.sourceId == "low" && c.targetId == "scale") = none := rfl
  have hm : ModMatrix.new.sources.find?
      (fun s => s.id == "lfo1" && s.type == "manual") = none := by
    simp [ModMatrix.new, defaultSources]
  exact ⟨Or.inl hs,
    modMatrix_missing_ids_are_noops.1 0 ModMatrix.new ⟨"bogus", "env1", "scale", 1⟩ []
      (Or.inl hs),
    modMatrix_missing_ids_are_noops.2.1 ModMatrix.new "bogus" id ht,
    modMatrix_missing_ids_are_noops.2.2.1 ModMatrix.new "low" "scale" 1 hc,
    modMatrix_missing_ids_are_noops.2.2.2 ModMatrix.new "lfo1" 1 hm⟩

end HikariWeave

